import Mathlib

/-!
Verification of the memory-neo4j subsystem of the openclaw repository.

Each definition below is a shallow embedding of a function from the
TypeScript source:

* `schema.ts` — relationship-type allowlist and validation,
* `hybrid-search.ts` — query classification and confidence-weighted RRF,
* `sleep-cycle.ts` — credential-detection patterns and the nine-phase
  sleep-cycle control flow,
* `neo4j-client.ts` — `findSimilar`, `mergeMemoryCluster`,
  `findDecayedMemories` and friends,
* `index.ts` — the `memory_store` / `memory_forget` tool handlers.

External collaborators (the Neo4j driver, the embedding client, the LLM)
are modelled as explicit oracle parameters, matching the module boundary
in the source.
-/

namespace OpenClaw

/-! ## Schema: relationship-type allowlist (schema.ts) -/

/-- Embedding of `ALLOWED_RELATIONSHIP_TYPES` from `schema.ts`:
the fixed allowlist of inter-entity relationship types. -/
def ALLOWED_RELATIONSHIP_TYPES : List String :=
  ["WORKS_AT", "LIVES_AT", "KNOWS", "MARRIED_TO", "PREFERS", "DECIDED", "RELATED_TO"]

/-- Embedding of `validateRelationshipType` from `schema.ts`:
`ALLOWED_RELATIONSHIP_TYPES.has(type)`. -/
def validateRelationshipType (t : String) : Bool :=
  ALLOWED_RELATIONSHIP_TYPES.contains t

/-- Input relationship shape used by `batchEntityOperations` in `neo4j-client.ts`. -/
structure RelInput where
  source : String
  target : String
  type : String
  confidence : ℚ
deriving DecidableEq, Repr

/-- Embedding of the filter in `batchEntityOperations` (`neo4j-client.ts`):
`const validRels = relationships.filter((r) => validateRelationshipType(r.type))`. -/
def validRels (relationships : List RelInput) : List RelInput :=
  relationships.filter (fun r => validateRelationshipType r.type)

/-- First-occurrence de-duplication, as produced by successive `Map.has`
checks in the source (JS `Map` keeps the first insertion). -/
def firstDedup : List String → List String
  | [] => []
  | x :: rest =>
    let tail := firstDedup rest
    x :: tail.filter (fun y => y ≠ x)

/-- Embedding of the `byType` grouping keys in `batchEntityOperations`
(`neo4j-client.ts`): the distinct relationship types that are interpolated
as Cypher relationship-type literals. Only `validRels` reach this point. -/
def interpolatedRelTypes (relationships : List RelInput) : List String :=
  firstDedup ((validRels relationships).map (fun r => r.type))

/-! ## Character-level regex matchers

The credential patterns in `sleep-cycle.ts` and the question pattern in
`hybrid-search.ts` are JavaScript regular expressions.  They are embedded
as nondeterministic matchers: a `Matcher` consumes a prefix of the input
and returns the list of possible remainders (so alternation, optionality
and unbounded repetition backtrack exactly like the JS engine). -/

/-- Nondeterministic prefix matcher: all possible remainders after a match. -/
def Matcher : Type := List Char → List (List Char)

/-- Match a single character satisfying a class. -/
def mOne (p : Char → Bool) : Matcher := fun cs =>
  match cs with
  | [] => []
  | c :: rest => if p c then [rest] else []

/-- Sequencing of two matchers. -/
def mSeq (a b : Matcher) : Matcher := fun cs => (a cs).flatMap b

/-- Alternation of two matchers. -/
def mAlt (a b : Matcher) : Matcher := fun cs => a cs ++ b cs

/-- Alternation of a list of matchers (regex `x|y|z`). -/
def mAlts (ms : List Matcher) : Matcher := fun cs => ms.flatMap (fun m => m cs)

/-- Optional matcher (regex `x?`). -/
def mOpt (a : Matcher) : Matcher := fun cs => a cs ++ [cs]

/-- Empty matcher (matches nothing, consuming no input). -/
def mEps : Matcher := fun cs => [cs]

/-- Match one literal character (case-sensitive). -/
def mChar (c : Char) : Matcher := mOne (fun x => x == c)

/-- Match one literal character, case-insensitively (JS `i` flag). -/
def mCharCI (c : Char) : Matcher := mOne (fun x => x.toLower == c.toLower)

/-- Match a literal string case-sensitively. -/
def mStr (s : String) : Matcher :=
  s.toList.foldr (fun c acc => mSeq (mChar c) acc) mEps

/-- Match a literal string case-insensitively (JS `i` flag). -/
def mStrCI (s : String) : Matcher :=
  s.toList.foldr (fun c acc => mSeq (mCharCI c) acc) mEps

/-- Length of the longest prefix of characters satisfying a class. -/
def countLeading (p : Char → Bool) : List Char → Nat
  | [] => 0
  | c :: rest => if p c then countLeading p rest + 1 else 0

/-- Regex `p{n,}`: consume at least `n` class characters, backtracking over
every possible length up to the maximal run. -/
def mRepGE (n : Nat) (p : Char → Bool) : Matcher := fun cs =>
  let run := countLeading p cs
  ((List.range (run + 1)).filter (fun k => n ≤ k)).map (fun k => cs.drop k)

/-- Regex `p{n}`: consume exactly `n` class characters. -/
def mRepExact (n : Nat) (p : Char → Bool) : Matcher := fun cs =>
  if n ≤ countLeading p cs then [cs.drop n] else []

/-- JS word character `\w`, i.e. `[A-Za-z0-9_]`. -/
def isWordChar (c : Char) : Bool := c.isAlphanum || c == '_'

/-- Zero-width word boundary `\b` at the end of a pattern. -/
def mEndBoundary : Matcher := fun cs =>
  match cs with
  | [] => [[]]
  | c :: _ => if isWordChar c then [] else [cs]

/-- Whether the matcher accepts some prefix of `cs`. -/
def matchesAt (m : Matcher) (cs : List Char) : Bool := !(m cs).isEmpty

/-- Unanchored regex search: try every start position. When `needB` is set
the pattern begins with `\b` (all such patterns here start with a word
character, so the boundary holds iff the previous character is absent or
is not a word character). -/
def searchFrom (m : Matcher) (needB : Bool) : Option Char → List Char → Bool
  | prev, [] =>
    let bOK := !needB || (match prev with | none => true | some p => !isWordChar p)
    bOK && matchesAt m []
  | prev, c :: rest =>
    let bOK := !needB || (match prev with | none => true | some p => !isWordChar p)
    if bOK && matchesAt m (c :: rest) then true else searchFrom m needB (some c) rest

/-- Embedding of JS `pattern.test(text)` for the patterns used here. -/
def regexTest (m : Matcher) (needB : Bool) (s : String) : Bool :=
  searchFrom m needB none s.toList

/-! ## Credential detection patterns (sleep-cycle.ts, `CREDENTIAL_PATTERNS`) -/

/-- Character class `[_-]`. -/
def isUD (c : Char) : Bool := c == '_' || c == '-'

/-- Character class `[a-z0-9]` under the `i` flag, i.e. ASCII alphanumerics. -/
def isAlnumCh (c : Char) : Bool := c.isAlphanum

/-- Character class `[a-z0-9_\-.]` under the `i` flag. -/
def isBearerTok (c : Char) : Bool := c.isAlphanum || c == '_' || c == '-' || c == '.'

/-- Character class `[a-zA-Z0-9_-]`. -/
def isJwtChar (c : Char) : Bool := c.isAlphanum || c == '_' || c == '-'

/-- Character class `[a-z0-9+/=_\-]` under the `i` flag. -/
def isSecretChar (c : Char) : Bool :=
  c.isAlphanum || c == '+' || c == '/' || c == '=' || c == '_' || c == '-'

/-- Character class `["']`. -/
def isQuote (c : Char) : Bool := c == '"' || c == '\''

/-- Character class `[A-Z0-9]` (case-sensitive, AWS pattern). -/
def isUpperDigit (c : Char) : Bool := (decide ('A' ≤ c) && decide (c ≤ 'Z')) || c.isDigit

/-- Negation of `\s` (JS `\S`). -/
def isNonWs (c : Char) : Bool := !c.isWhitespace

/-- Pattern 1, `/\b(?:sk|api[_-]?key(?:[_-]\w+)?)[_-][a-z0-9]{16,}/i` ("API key"). -/
def pApiKey : Matcher :=
  mSeq
    (mAlt (mStrCI "sk")
      (mSeq (mStrCI "api")
        (mSeq (mOpt (mOne isUD))
          (mSeq (mStrCI "key") (mOpt (mSeq (mOne isUD) (mRepGE 1 isWordChar)))))))
    (mSeq (mOne isUD) (mRepGE 16 isAlnumCh))

/-- Pattern 2, `/bearer\s+[a-z0-9_\-.]{20,}/i` ("Bearer token"). -/
def pBearer : Matcher :=
  mSeq (mStrCI "bearer") (mSeq (mRepGE 1 Char.isWhitespace) (mRepGE 20 isBearerTok))

/-- Pattern 3, `/\beyJ[a-zA-Z0-9_-]{20,}\.[a-zA-Z0-9_-]{20,}\.[a-zA-Z0-9_-]{20,}/i` ("JWT"). -/
def pJwt : Matcher :=
  mSeq (mStrCI "eyJ")
    (mSeq (mRepGE 20 isJwtChar)
      (mSeq (mChar '.')
        (mSeq (mRepGE 20 isJwtChar) (mSeq (mChar '.') (mRepGE 20 isJwtChar)))))

/-- Pattern 4, `/\b(?:token|secret|key)\s*[:=]\s*["']?[a-z0-9+/=_\-]{32,}["']?/i`
("Token/secret"). -/
def pSecret : Matcher :=
  mSeq (mAlts [mStrCI "token", mStrCI "secret", mStrCI "key"])
    (mSeq (mRepGE 0 Char.isWhitespace)
      (mSeq (mOne (fun c => c == ':' || c == '='))
        (mSeq (mRepGE 0 Char.isWhitespace)
          (mSeq (mOpt (mOne isQuote)) (mSeq (mRepGE 32 isSecretChar) (mOpt (mOne isQuote)))))))

/-- Pattern 5, `/\b(?:password|passwd|pwd)\s*[:=]\s*["']?\S{4,}["']?/i`
("Password assignment"). -/
def pPassword : Matcher :=
  mSeq (mAlts [mStrCI "password", mStrCI "passwd", mStrCI "pwd"])
    (mSeq (mRepGE 0 Char.isWhitespace)
      (mSeq (mOne (fun c => c == ':' || c == '='))
        (mSeq (mRepGE 0 Char.isWhitespace)
          (mSeq (mOpt (mOne isQuote)) (mSeq (mRepGE 4 isNonWs) (mOpt (mOne isQuote)))))))

/-- Pattern 6, `/\bcreds?\s+\S+[/\\]\S+/i` ("Credentials (user/pass)"). -/
def pCreds : Matcher :=
  mSeq (mStrCI "cred")
    (mSeq (mOpt (mCharCI 's'))
      (mSeq (mRepGE 1 Char.isWhitespace)
        (mSeq (mRepGE 1 isNonWs)
          (mSeq (mOne (fun c => c == '/' || c == '\\')) (mRepGE 1 isNonWs)))))

/-- Pattern 7, `/\/\/[^/\s:]+:[^/\s@]+@/i` ("URL credentials"). -/
def pUrlCreds : Matcher :=
  mSeq (mStr "//")
    (mSeq (mRepGE 1 (fun c => !(c == '/' || c.isWhitespace || c == ':')))
      (mSeq (mChar ':')
        (mSeq (mRepGE 1 (fun c => !(c == '/' || c.isWhitespace || c == '@'))) (mChar '@'))))

/-- Pattern 8, `/-----BEGIN\s+(?:RSA\s+)?PRIVATE\s+KEY-----/i` ("Private key"). -/
def pPrivateKey : Matcher :=
  mSeq (mStrCI "-----BEGIN")
    (mSeq (mRepGE 1 Char.isWhitespace)
      (mSeq (mOpt (mSeq (mStrCI "RSA") (mRepGE 1 Char.isWhitespace)))
        (mSeq (mStrCI "PRIVATE") (mSeq (mRepGE 1 Char.isWhitespace) (mStrCI "KEY-----")))))

/-- Pattern 9, `/\b(?:AKIA|ASIA)[A-Z0-9]{16}\b/` ("AWS key", case-sensitive). -/
def pAwsKey : Matcher :=
  mSeq (mAlt (mStr "AKIA") (mStr "ASIA")) (mSeq (mRepExact 16 isUpperDigit) mEndBoundary)

/-- Pattern 10, `/\b(?:ghp|gho|ghu|ghs|ghr|glpat)[_-][a-zA-Z0-9]{16,}/i`
("GitHub/GitLab token"). -/
def pGithubToken : Matcher :=
  mSeq (mAlts [mStrCI "ghp", mStrCI "gho", mStrCI "ghu", mStrCI "ghs", mStrCI "ghr", mStrCI "glpat"])
    (mSeq (mOne isUD) (mRepGE 16 isAlnumCh))

/-- Embedding of `CREDENTIAL_PATTERNS` from `sleep-cycle.ts`, in source order.
The boolean marks patterns that begin with a `\b` word boundary. -/
def CREDENTIAL_PATTERNS : List (Matcher × Bool × String) :=
  [ (pApiKey, true, "API key"),
    (pBearer, false, "Bearer token"),
    (pJwt, true, "JWT"),
    (pSecret, true, "Token/secret"),
    (pPassword, true, "Password assignment"),
    (pCreds, true, "Credentials (user/pass)"),
    (pUrlCreds, false, "URL credentials"),
    (pPrivateKey, false, "Private key"),
    (pAwsKey, true, "AWS key"),
    (pGithubToken, true, "GitHub/GitLab token") ]

/-- Helper for `detectCredential`: scan the pattern list in order. -/
def detectCredentialAux : List (Matcher × Bool × String) → String → Option String
  | [], _ => none
  | (m, b, label) :: rest, text =>
    if regexTest m b text then some label else detectCredentialAux rest text

/-- Embedding of `detectCredential` from `sleep-cycle.ts`: first matching
pattern label, or `none` when the text is clean. -/
def detectCredential (text : String) : Option String :=
  detectCredentialAux CREDENTIAL_PATTERNS text

/-! ## Query classification (hybrid-search.ts) -/

/-- Query categories returned by `classifyQuery`. -/
inductive QueryType where
  | short
  | entity
  | long
  | balanced
deriving DecidableEq, Repr

/-- Whitespace run splitter, auxiliary to `jsWords`. -/
def splitWsAux : List Char → List Char → List (List Char)
  | [], cur => if cur.isEmpty then [] else [cur.reverse]
  | c :: rest, cur =>
    if c.isWhitespace then
      if cur.isEmpty then splitWsAux rest [] else cur.reverse :: splitWsAux rest []
    else splitWsAux rest (c :: cur)

/-- Drop leading and trailing whitespace (JS `String.prototype.trim`). -/
def trimChars (cs : List Char) : List Char :=
  ((cs.dropWhile Char.isWhitespace).reverse.dropWhile Char.isWhitespace).reverse

/-- Embedding of `query.trim().split(/\s+/)` from `classifyQuery`
(`hybrid-search.ts`). JS `"".split(/\s+/)` yields `[""]`. -/
def jsWords (q : String) : List String :=
  let t := trimChars q.toList
  if t.isEmpty then [""] else (splitWsAux t []).map (fun l => String.mk l)

/-- Test `/^[A-Z]/` on a word. -/
def startsWithCapital (w : String) : Bool :=
  match w.toList with
  | [] => false
  | c :: _ => decide ('A' ≤ c) && decide (c ≤ 'Z')

/-- Embedding of the `commonWords` alternation in `classifyQuery`
(`hybrid-search.ts`), matched exactly and case-sensitively. -/
def COMMON_WORDS : List String :=
  ["I", "A", "An", "The", "Is", "Are", "Was", "Were", "What", "Who", "Where", "When",
   "How", "Why", "Do", "Does", "Did", "Find", "Show", "Get", "Tell", "Me", "My",
   "About", "For"]

/-- Predicate for the `capitalizedWords` filter in `classifyQuery`:
`/^[A-Z]/.test(w) && !commonWords.test(w)`. -/
def isCapitalizedNonStopword (w : String) : Bool :=
  startsWithCapital w && !COMMON_WORDS.contains w

/-- Embedding of `/^(who|where|what)\s+(is|does|did|was|were)\s/i.test(query)`
from `classifyQuery` (`hybrid-search.ts`), anchored at the start. -/
def questionPattern (q : String) : Bool :=
  matchesAt
    (mSeq (mAlts [mStrCI "who", mStrCI "where", mStrCI "what"])
      (mSeq (mRepGE 1 Char.isWhitespace)
        (mSeq (mAlts [mStrCI "is", mStrCI "does", mStrCI "did", mStrCI "was", mStrCI "were"])
          (mOne Char.isWhitespace))))
    q.toList

/-- Embedding of `classifyQuery` from `hybrid-search.ts`. The `default`
branch is named `balanced` here (`default` is the JS literal). -/
def classifyQuery (query : String) : QueryType :=
  let words := jsWords query
  let wordCount := words.length
  let capitalizedWords := words.filter isCapitalizedNonStopword
  if capitalizedWords.length > 0 then QueryType.entity
  else if wordCount ≤ 2 then QueryType.short
  else if wordCount ≤ 4 && questionPattern query then QueryType.entity
  else if 5 ≤ wordCount then QueryType.long
  else QueryType.balanced

/-! ## Confidence-weighted RRF fusion (hybrid-search.ts) -/

/-- Embedding of the `SearchSignalResult` record from `schema.ts`.
Scores are modelled as rationals (the source computes in JS floats). -/
structure SearchSignalResult where
  id : String
  text : String
  category : String
  importance : ℚ
  createdAt : String
  score : ℚ
deriving DecidableEq, Repr

/-- Embedding of the `FusedCandidate` record from `hybrid-search.ts`. -/
structure FusedCandidate where
  id : String
  text : String
  category : String
  importance : ℚ
  createdAt : String
  rrfScore : ℚ
deriving DecidableEq, Repr

/-- Per-signal rank/score lookup built in `fuseWithConfidenceRRF`
(`hybrid-search.ts`): 1-indexed rank of the first occurrence of `i` in the
signal, together with that occurrence's score (later duplicates in the same
signal are ignored, matching the `map.has` guard in the source). -/
def signalEntry : List SearchSignalResult → String → Option (ℕ × ℚ)
  | [], _ => none
  | h :: t, i =>
    if h.id = i then some (1, h.score)
    else (signalEntry t i).map (fun p => (p.1 + 1, p.2))

/-- All unique candidate ids across all signals, in first-occurrence order
(the iteration order of `candidateMetadata` in the source). -/
def candidateIds (signals : List (List SearchSignalResult)) : List String :=
  firstDedup (signals.flatMap (fun s => s.map (fun e => e.id)))

/-- Metadata of the first occurrence of a candidate across all signals,
as collected into `candidateMetadata` in the source. -/
def candidateMeta (signals : List (List SearchSignalResult)) (i : String) :
    SearchSignalResult :=
  ((signals.flatMap (fun s => s)).find? (fun e => e.id = i)).getD
    { id := i, text := "", category := "", importance := 0, createdAt := "", score := 0 }

/-- Embedding of the per-candidate score loop in `fuseWithConfidenceRRF`:
`rrfScore += weights[i] * entry.score * (1 / (k + entry.rank))`, skipping
signals in which the candidate is absent. -/
def rrfScoreOf (signals : List (List SearchSignalResult)) (weights : List ℚ) (k : ℚ)
    (i : String) : ℚ :=
  (List.range signals.length).foldl
    (fun acc idx =>
      match signalEntry (signals.getD idx []) i with
      | some (r, s) => acc + weights.getD idx 0 * s * (1 / (k + (r : ℚ)))
      | none => acc)
    0

/-- Embedding of `fuseWithConfidenceRRF` from `hybrid-search.ts`: build one
fused candidate per unique id and sort by `rrfScore` descending
(`results.sort((a, b) => b.rrfScore - a.rrfScore)`). -/
def fuseWithConfidenceRRF (signals : List (List SearchSignalResult)) (k : ℚ)
    (weights : List ℚ) : List FusedCandidate :=
  let unsorted := (candidateIds signals).map (fun i =>
    let meta := candidateMeta signals i
    { id := i, text := meta.text, category := meta.category,
      importance := meta.importance, createdAt := meta.createdAt,
      rrfScore := rrfScoreOf signals weights k i : FusedCandidate })
  List.insertionSort (fun a b => b.rrfScore ≤ a.rrfScore) unsorted

/-- Embedding of steps 4-5 of `hybridSearch` (`hybrid-search.ts`): fuse the
three signals and truncate to `limit` (`fused.slice(0, limit)`).  The
subsequent display normalization divides every score by the same positive
constant and does not change ranking or membership. -/
def hybridSearchRanked (signals : List (List SearchSignalResult)) (k : ℚ)
    (weights : List ℚ) (limit : ℕ) : List FusedCandidate :=
  (fuseWithConfidenceRRF signals k weights).take limit

/-- Fused-score formula exactly as the specification states it:
`score = Σ_i weight_i × rawScore_i / (k + rank_i)`, where a candidate absent
from a signal contributes 0 for that signal. Stated independently of the
source loop for comparison. -/
def claimFusedScore (signals : List (List SearchSignalResult)) (weights : List ℚ)
    (k : ℚ) (i : String) : ℚ :=
  ((List.range signals.length).map (fun idx =>
    match signalEntry (signals.getD idx []) i with
    | some (r, s) => weights.getD idx 0 * s / (k + (r : ℚ))
    | none => 0)).sum

/-! ## Decay scoring (neo4j-client.ts, `findDecayedMemories`) -/

/-- Embedding of the half-life expression in the `findDecayedMemories`
Cypher query:
`halfLife = categoryHalfLife * (1 + importance * importanceMult) * (1 + log(1 + retrievalCount) * 0.2)`
(Cypher `log` is the natural logarithm). -/
noncomputable def decayHalfLife (categoryHalfLife importanceMultiplier importance : ℝ)
    (retrievalCount : ℕ) : ℝ :=
  categoryHalfLife * (1 + importance * importanceMultiplier) *
    (1 + Real.log (1 + (retrievalCount : ℝ)) * (2 / 10))

/-- Embedding of the decay score in the `findDecayedMemories` Cypher query:
`decayScore = importance * exp(-1.0 * effectiveAgeDays / halfLife)`. -/
noncomputable def decayScore (importance effectiveAgeDays halfLife : ℝ) : ℝ :=
  importance * Real.exp (-1 * effectiveAgeDays / halfLife)

/-- Memory row as seen by the decay query. `effectiveAgeDays` is the
`lastRetrievedAt`-else-`createdAt` age computed by the query. -/
structure DecayMemory where
  id : String
  text : String
  category : String
  importance : ℚ
  retrievalCount : ℕ
  effectiveAgeDays : ℚ
deriving DecidableEq, Repr

/-- Parameters of `findDecayedMemories` (`neo4j-client.ts`). -/
structure DecayParams where
  retentionThreshold : ℚ
  baseHalfLifeDays : ℚ
  importanceMultiplier : ℚ
  decayCurves : List (String × ℚ)
deriving DecidableEq, Repr

/-- Embedding of the per-category half-life lookup in `findDecayedMemories`:
`CASE WHEN curveMap[category] IS NOT NULL THEN curveMap[category] ELSE baseHalfLife END`. -/
def categoryHalfLifeFor (curves : List (String × ℚ)) (base : ℚ) (cat : String) : ℚ :=
  match curves.find? (fun p => p.1 = cat) with
  | some p => p.2
  | none => base

/-- Embedding of the `WHERE` clause of the `findDecayedMemories` query: a
memory is a pruning candidate iff its category is not `core` and its decay
score is below the retention threshold.  The `m.category <> 'core'` filter
is part of the query itself. -/
def isDecayCandidate (p : DecayParams) (m : DecayMemory) : Prop :=
  m.category ≠ "core" ∧
    decayScore (m.importance : ℝ) (m.effectiveAgeDays : ℝ)
      (decayHalfLife
        ((categoryHalfLifeFor p.decayCurves p.baseHalfLifeDays m.category : ℚ) : ℝ)
        (p.importanceMultiplier : ℝ) (m.importance : ℝ) m.retrievalCount)
      < (p.retentionThreshold : ℝ)

/-- Embedding of the decay/pruning phase effect (Phase 3 of `runSleepCycle`):
`pruneMemories` deletes exactly the ids returned by `findDecayedMemories`,
so the pruned set is the set of decay candidates present in the store. -/
def decayPrunedSet (p : DecayParams) (db : List DecayMemory) : Set DecayMemory :=
  fun m => m ∈ db ∧ isDecayCandidate p m

/-! ## `findSimilar` and the `memory_store` tool (neo4j-client.ts, index.ts)

The vector index and the embedding client are external collaborators: the
cosine similarity of every stored memory to the query embedding is supplied
as an oracle `sim` keyed by memory id. -/

/-- Stored memory as seen by the duplicate check. -/
structure StoredMem where
  id : String
  text : String
  agentId : String
deriving DecidableEq, Repr

/-- Embedding of `db.index.vector.queryNodes(index, k, embedding)`: the `k`
nearest stored memories by similarity, across all agents (the HNSW index
does not support pre-filtering). -/
def vectorIndexTopK (db : List StoredMem) (sim : String → ℚ) (k : ℕ) : List StoredMem :=
  (List.insertionSort (fun m1 m2 => sim m2.id ≤ sim m1.id) db).take k

/-- Embedding of `findSimilar` from `neo4j-client.ts` on the agent-scoped
path (the `memory_store` handler always passes an agent id): fetch
`limit * 3` candidates from the index, keep those with
`score >= threshold` and a matching `agentId`, and trim to `limit`. -/
def findSimilar (db : List StoredMem) (sim : String → ℚ) (threshold : ℚ) (limit : ℕ)
    (agentId : String) : List StoredMem :=
  ((vectorIndexTopK db sim (limit * 3)).filter
    (fun m => decide (threshold ≤ sim m.id) && m.agentId == agentId)).take limit

/-- Outcome of the `memory_store` tool (`details.action` in `index.ts`). -/
inductive StoreOutcome where
  | duplicate (existingId existingText : String)
  | created (id : String)
deriving DecidableEq, Repr

/-- Embedding of the `memory_store` handler from `index.ts`: check
`findSimilar(vector, 0.95, 1, agentId)`; on a hit return `duplicate` with
the existing memory's id and text and perform no write, otherwise call
`storeMemory` exactly once and return `created`. -/
def memoryStore (db : List StoredMem) (sim : String → ℚ) (newId text agentId : String) :
    StoreOutcome × List StoredMem :=
  match findSimilar db sim (mkRat 95 100) 1 agentId with
  | e :: _ => (StoreOutcome.duplicate e.id e.text, db)
  | [] => (StoreOutcome.created newId, db ++ [{ id := newId, text := text, agentId := agentId }])

/-! ## The `memory_forget` tool (index.ts) -/

/-- Hit returned by `vectorSearch` to the `memory_forget` handler. -/
structure ForgetHit where
  id : String
  text : String
  category : String
  score : ℚ
deriving DecidableEq, Repr

/-- Outcome of the `memory_forget` tool (`details` in `index.ts`). -/
inductive ForgetOutcome where
  | notFound
  | deleted (id : String)
  | candidates (ids : List String)
deriving DecidableEq, Repr

/-- Embedding of the agent-scoped `deleteMemory` call used by
`memory_forget`: remove the memory with the given id belonging to the agent. -/
def deleteMemoryScoped (db : List StoredMem) (id agentId : String) : List StoredMem :=
  db.filter (fun m => !(m.id == id && m.agentId == agentId))

/-- Embedding of the query branch of the `memory_forget` handler
(`index.ts`): `results` is the outcome of
`db.vectorSearch(vector, 5, 0.7, agentId)`.  A single result scoring
strictly above `0.95` is auto-deleted; otherwise, with at least one result,
a candidate list is returned and nothing is deleted. -/
def memoryForgetByQuery (db : List StoredMem) (results : List ForgetHit)
    (agentId : String) : ForgetOutcome × List StoredMem :=
  match results with
  | [] => (ForgetOutcome.notFound, db)
  | [r] =>
    if r.score > mkRat 95 100 then
      (ForgetOutcome.deleted r.id, deleteMemoryScoped db r.id agentId)
    else
      (ForgetOutcome.candidates [r.id], db)
  | rs => (ForgetOutcome.candidates (rs.map (fun r => r.id)), db)

/-! ## `mergeMemoryCluster` (neo4j-client.ts) -/

/-- Graph store state relevant to `mergeMemoryCluster`: memory node ids plus
`MENTIONS` edges (memory id, entity id) and `TAGGED` edges (memory id, tag id). -/
structure GraphDB where
  memories : List String
  mentions : List (String × String)
  tagged : List (String × String)
deriving DecidableEq, Repr

/-- Survivor-selection loop of `mergeMemoryCluster`: starting from index 0,
replace the best index whenever a strictly larger importance is found. -/
def argmaxFrom (imps : List ℚ) : List ℕ → ℕ → ℕ
  | [], best => best
  | i :: rest, best =>
    argmaxFrom imps rest (if imps.getD best 0 < imps.getD i 0 then i else best)

/-- Embedding of the survivor index computation in `mergeMemoryCluster`:
the first index of maximal importance. -/
def survivorIndex (imps : List ℚ) : ℕ :=
  argmaxFrom imps (List.range imps.length) 0

/-- Embedding of `toDelete` in `mergeMemoryCluster`:
`memoryIds.filter((_, i) => i !== survivorIdx)`. -/
def clusterLosers (memoryIds : List String) (importances : List ℚ) : List String :=
  (memoryIds.enum.filter (fun p => p.1 ≠ survivorIndex importances)).map (fun p => p.2)

/-- Embedding of the edge-transfer statements in `mergeMemoryCluster`:
losers' edges are re-pointed at the survivor (`MERGE` creates the edge on
the survivor when absent) and removed from the losers. -/
def transferEdges (edges : List (String × String)) (losers : List String)
    (survivor : String) : List (String × String) :=
  let kept := edges.filter (fun p => !(losers.contains p.1))
  let moved := ((edges.filter (fun p => losers.contains p.1)).map
    (fun p => (survivor, p.2))).dedup
  kept ++ moved.filter (fun p => !(kept.contains p))

/-- Embedding of `mergeMemoryCluster` from `neo4j-client.ts`: pick the
highest-importance member as survivor; inside one transaction verify all
members still exist (otherwise merge nothing and return 0), transfer
`MENTIONS` and `TAGGED` edges to the survivor, then delete the losers. -/
def mergeMemoryCluster (db : GraphDB) (memoryIds : List String) (importances : List ℚ) :
    (String × ℕ) × GraphDB :=
  let sIdx := survivorIndex importances
  let survivorId := memoryIds.getD sIdx ""
  let toDelete := clusterLosers memoryIds importances
  if memoryIds.all (fun i => db.memories.contains i) then
    let afterTransfer : GraphDB :=
      { memories := db.memories,
        mentions := transferEdges db.mentions toDelete survivorId,
        tagged := transferEdges db.tagged toDelete survivorId }
    let afterDelete : GraphDB :=
      { afterTransfer with
        memories := afterTransfer.memories.filter (fun i => !(toDelete.contains i)) }
    ((survivorId, toDelete.length), afterDelete)
  else
    ((survivorId, 0), db)

/-! ## Credential-scan phase (sleep-cycle.ts, Phase 5b) -/

/-- Memory row as fetched by `fetchAllMemoriesForScan` (`neo4j-client.ts`);
that query has no category filter, so `core` memories are included. -/
structure ScanMemory where
  id : String
  text : String
  category : String
deriving DecidableEq, Repr

/-- Counters of Phase 5b in `SleepCycleResult`. -/
structure CredentialScanCounters where
  memoriesScanned : ℕ
  credentialsFound : ℕ
  memoriesRemoved : ℕ
deriving DecidableEq, Repr

/-- Embedding of Phase 5b of `runSleepCycle` (`sleep-cycle.ts`): fetch every
memory regardless of category, collect the ids whose text matches a
credential pattern, and delete them via `deleteMemoriesByIds`. -/
def credentialScanPhaseModel (db : List ScanMemory) : List ScanMemory × CredentialScanCounters :=
  let toRemove := (db.filter (fun m => (detectCredential m.text).isSome)).map (fun m => m.id)
  let newDb := db.filter (fun m => !(toRemove.contains m.id))
  (newDb, { memoriesScanned := db.length,
            credentialsFound := toRemove.length,
            memoriesRemoved := db.length - newDb.length })

/-! ## Sleep-cycle pipeline (sleep-cycle.ts, `runSleepCycle`)

The store client, the embedding client and the LLM are collaborators of
`runSleepCycle`; their operations are supplied through a `SleepEnv` over an
abstract store state `σ`.  What is embedded concretely is the control flow
of `runSleepCycle`: the fixed phase order, the per-phase abort-signal and
option guards, Phase 1c's resolution loop, and the `aborted` flag read at
the end.  The abort signal is modelled by its value at the i-th top-level
phase check (`abortSignal?.aborted`); an `AbortSignal` never resets, which
is the monotonicity hypothesis of the abort theorem. -/

/-- Counters of Phase 1a in `SleepCycleResult`. -/
structure DedupCounters where
  clustersFound : ℕ
  memoriesMerged : ℕ
deriving DecidableEq, Repr

/-- Counters of Phase 1b in `SleepCycleResult`. -/
structure SemanticDedupCounters where
  pairsChecked : ℕ
  duplicatesMerged : ℕ
deriving DecidableEq, Repr

/-- Counters of Phase 1c in `SleepCycleResult`. -/
structure ConflictCounters where
  pairsFound : ℕ
  resolved : ℕ
  invalidated : ℕ
deriving DecidableEq, Repr

/-- Counters of Phase 1d in `SleepCycleResult`. -/
structure EntityDedupCounters where
  pairsFound : ℕ
  merged : ℕ
deriving DecidableEq, Repr

/-- Counters of Phase 2 in `SleepCycleResult`. -/
structure ExtractionCounters where
  total : ℕ
  processed : ℕ
  succeeded : ℕ
  failed : ℕ
deriving DecidableEq, Repr

/-- Counters of Phase 4 in `SleepCycleResult`. -/
structure CleanupCounters where
  entitiesRemoved : ℕ
  tagsRemoved : ℕ
  singleUseTagsRemoved : ℕ
deriving DecidableEq, Repr

/-- Counters of Phase 6 in `SleepCycleResult`. -/
structure TaskLedgerCounters where
  staleCount : ℕ
  archivedCount : ℕ
deriving DecidableEq, Repr

/-- Conflict pair as returned by `findConflictingMemories`. -/
structure ConflictPair where
  idA : String
  textA : String
  idB : String
  textB : String
deriving DecidableEq, Repr

/-- Verdict of the `resolveConflict` LLM call. -/
inductive ConflictVerdict where
  | keepA
  | keepB
  | both
  | skip
deriving DecidableEq, Repr

/-- Collaborator operations used by `runSleepCycle`, over an abstract store
state `σ`.  Phase 1c's internals are taken apart (pair query, LLM verdict
oracle, invalidation write) because its loop is embedded concretely; the
other phases are opaque state transformers returning their counters, and
`resolveVerdict p = none` models a rejected promise in
`Promise.allSettled`. -/
structure SleepEnv (σ : Type) where
  vectorDedupPhase : σ → σ × DedupCounters
  semanticDedupPhase : σ → σ × SemanticDedupCounters
  findConflictPairs : σ → List ConflictPair
  resolveVerdict : ConflictPair → Option ConflictVerdict
  invalidateMemory : String → σ → σ
  abortDuringConflict : ℕ → Bool
  entityDedupPhase : σ → σ × EntityDedupCounters
  extractionPhase : σ → σ × ExtractionCounters
  decayPhase : σ → σ × ℕ
  cleanupPhase : σ → σ × CleanupCounters
  noisePhase : σ → σ × ℕ
  credentialPhase : σ → σ × CredentialScanCounters
  taskLedgerPhase : σ → σ × TaskLedgerCounters

/-- Embedding of Phase 1 of `runSleepCycle`: vector merge (1a) always runs
inside the phase; semantic dedup (1b) runs only when `skipSemanticDedup`
is false. -/
def phase1 {σ : Type} (env : SleepEnv σ) (skipSemanticDedup : Bool) (s : σ) :
    σ × DedupCounters × SemanticDedupCounters :=
  let r1 := env.vectorDedupPhase s
  if skipSemanticDedup then (r1.1, r1.2, { pairsChecked := 0, duplicatesMerged := 0 })
  else
    let r2 := env.semanticDedupPhase r1.1
    (r2.1, r1.2, r2.2)

/-- Embedding of the resolution loop of Phase 1c: process pairs in order,
stopping at an abort check; fulfilled verdicts `a`/`b` invalidate the other
side, `both` counts as resolved, `skip` and rejected promises change
nothing.  (The source dispatches LLM calls in chunks of `llmConcurrency`;
that concurrency only overlaps latency — the result loop applying the
writes is sequential, which is what is embedded.) -/
def conflictLoop {σ : Type} (env : SleepEnv σ) :
    List ConflictPair → ℕ → σ → ConflictCounters → σ × ConflictCounters
  | [], _, s, c => (s, c)
  | p :: rest, i, s, c =>
    if env.abortDuringConflict i then (s, c)
    else
      match env.resolveVerdict p with
      | none => conflictLoop env rest (i + 1) s c
      | some ConflictVerdict.keepA =>
        conflictLoop env rest (i + 1) (env.invalidateMemory p.idB s)
          { c with invalidated := c.invalidated + 1, resolved := c.resolved + 1 }
      | some ConflictVerdict.keepB =>
        conflictLoop env rest (i + 1) (env.invalidateMemory p.idA s)
          { c with invalidated := c.invalidated + 1, resolved := c.resolved + 1 }
      | some ConflictVerdict.both =>
        conflictLoop env rest (i + 1) s { c with resolved := c.resolved + 1 }
      | some ConflictVerdict.skip => conflictLoop env rest (i + 1) s c

/-- Embedding of Phase 1c of `runSleepCycle`: query conflict pairs, then run
the resolution loop with `pairsFound` initialised to the number of pairs. -/
def conflictPhase {σ : Type} (env : SleepEnv σ) (s : σ) : σ × ConflictCounters :=
  let pairs := env.findConflictPairs s
  conflictLoop env pairs 0 s { pairsFound := pairs.length, resolved := 0, invalidated := 0 }

/-- Effect of the i-th top-level phase of `runSleepCycle` on the store
state, in source order: 0 = Phase 1 (dedup + semantic dedup), 1 = Phase 1c
(conflicts), 2 = Phase 1d (entity dedup), 3 = Phase 2 (extraction),
4 = Phase 3 (decay), 5 = Phase 4 (orphan cleanup), 6 = Phase 5 (noise),
7 = Phase 5b (credential scan), 8 = Phase 6 (task ledger). -/
def phaseApply {σ : Type} (env : SleepEnv σ) (skipSemanticDedup : Bool) (i : ℕ) (s : σ) : σ :=
  match i with
  | 0 => (phase1 env skipSemanticDedup s).1
  | 1 => (conflictPhase env s).1
  | 2 => (env.entityDedupPhase s).1
  | 3 => (env.extractionPhase s).1
  | 4 => (env.decayPhase s).1
  | 5 => (env.cleanupPhase s).1
  | 6 => (env.noisePhase s).1
  | 7 => (env.credentialPhase s).1
  | 8 => (env.taskLedgerPhase s).1
  | _ => s

/-- Guard of the i-th top-level phase of `runSleepCycle`: every phase checks
`!abortSignal?.aborted`; Phase 1c additionally requires
`!skipSemanticDedup`, Phase 2 requires `config.enabled`, and Phase 6
requires a workspace directory. -/
def sleepGuard (skipSemanticDedup extractionEnabled hasWorkspace : Bool)
    (ab : ℕ → Bool) (i : ℕ) : Bool :=
  !(ab i) &&
    (match i with
     | 1 => !skipSemanticDedup
     | 3 => extractionEnabled
     | 8 => hasWorkspace
     | _ => true)

/-- Store state reached by `runSleepCycle` at the i-th top-level abort
check: phase i - 1 has just completed or been skipped. -/
def sleepStates {σ : Type} (env : SleepEnv σ) (skipSemanticDedup extractionEnabled
    hasWorkspace : Bool) (ab : ℕ → Bool) (st : σ) : ℕ → σ
  | 0 => st
  | i + 1 =>
    let s := sleepStates env skipSemanticDedup extractionEnabled hasWorkspace ab st i
    if sleepGuard skipSemanticDedup extractionEnabled hasWorkspace ab i then
      phaseApply env skipSemanticDedup i s
    else s

/-- Result record of `runSleepCycle` (`SleepCycleResult` minus duration),
together with the final store state. -/
structure SleepResultModel (σ : Type) where
  db : σ
  dedup : DedupCounters
  semanticDedup : SemanticDedupCounters
  conflict : ConflictCounters
  entityDedup : EntityDedupCounters
  extraction : ExtractionCounters
  decay : ℕ
  cleanup : CleanupCounters
  credentialScan : CredentialScanCounters
  taskLedger : TaskLedgerCounters
  aborted : Bool

/-- Embedding of `runSleepCycle` from `sleep-cycle.ts`: run the nine guarded
phases in order, collect each executed phase's counters (skipped phases
leave their counters at the zero-initialised values of `result`), and read
`abortSignal?.aborted` once more at the end for the `aborted` flag. -/
def runSleepCycleModel {σ : Type} (env : SleepEnv σ) (skipSemanticDedup extractionEnabled
    hasWorkspace : Bool) (ab : ℕ → Bool) (st : σ) : SleepResultModel σ :=
  let state := sleepStates env skipSemanticDedup extractionEnabled hasWorkspace ab st
  let guard := sleepGuard skipSemanticDedup extractionEnabled hasWorkspace ab
  { db := state 9,
    dedup :=
      if guard 0 then (phase1 env skipSemanticDedup (state 0)).2.1
      else { clustersFound := 0, memoriesMerged := 0 },
    semanticDedup :=
      if guard 0 then (phase1 env skipSemanticDedup (state 0)).2.2
      else { pairsChecked := 0, duplicatesMerged := 0 },
    conflict :=
      if guard 1 then (conflictPhase env (state 1)).2
      else { pairsFound := 0, resolved := 0, invalidated := 0 },
    entityDedup :=
      if guard 2 then (env.entityDedupPhase (state 2)).2
      else { pairsFound := 0, merged := 0 },
    extraction :=
      if guard 3 then (env.extractionPhase (state 3)).2
      else { total := 0, processed := 0, succeeded := 0, failed := 0 },
    decay := if guard 4 then (env.decayPhase (state 4)).2 else 0,
    cleanup :=
      if guard 5 then (env.cleanupPhase (state 5)).2
      else { entitiesRemoved := 0, tagsRemoved := 0, singleUseTagsRemoved := 0 },
    credentialScan :=
      if guard 7 then (env.credentialPhase (state 7)).2
      else { memoriesScanned := 0, credentialsFound := 0, memoriesRemoved := 0 },
    taskLedger :=
      if guard 8 then (env.taskLedgerPhase (state 8)).2
      else { staleCount := 0, archivedCount := 0 },
    aborted := ab 9 }

/-! ## Concrete instances used by counterexamples and witnesses -/

/-- Similarity oracle of the multi-agent counterexample: three memories of
agent `b` outrank the agent-`a` memory, all above the duplicate threshold. -/
def cSim : String → ℚ := fun i =>
  if i = "b1" then mkRat 99 100
  else if i = "b2" then mkRat 98 100
  else if i = "b3" then mkRat 97 100
  else if i = "a1" then mkRat 96 100
  else 0

/-- Store of the multi-agent counterexample. -/
def cDB : List StoredMem :=
  [{ id := "b1", text := "x", agentId := "b" },
   { id := "b2", text := "x", agentId := "b" },
   { id := "b3", text := "x", agentId := "b" },
   { id := "a1", text := "likes tea", agentId := "a" }]

/-- Similarity oracle of the single-agent duplicate witness. -/
def wSim : String → ℚ := fun i => if i = "d1" then mkRat 96 100 else 0

/-- Store of the single-agent duplicate witness. -/
def wDB : List StoredMem := [{ id := "d1", text := "likes tea", agentId := "a" }]

/-- Graph store of the cluster-merge witness. -/
def cGDB : GraphDB :=
  { memories := ["low", "high", "mid"],
    mentions := [("low", "e1"), ("mid", "e2")],
    tagged := [("mid", "t1")] }

/-- Member ids of the cluster-merge witness. -/
def cIds : List String := ["low", "high", "mid"]

/-- Importances of the cluster-merge witness. -/
def cImps : List ℚ := [mkRat 3 10, mkRat 9 10, mkRat 5 10]

/-- Concrete sleep-cycle environment over `ℕ` used by witnesses: every
phase effect increments the state, so skipped phases are observable. -/
def cEnv : SleepEnv ℕ where
  vectorDedupPhase s := (s + 1, { clustersFound := 1, memoriesMerged := 1 })
  semanticDedupPhase s := (s + 1, { pairsChecked := 1, duplicatesMerged := 1 })
  findConflictPairs _ := [{ idA := "a", textA := "ta", idB := "b", textB := "tb" }]
  resolveVerdict _ := some ConflictVerdict.keepA
  invalidateMemory _ s := s + 1
  abortDuringConflict _ := false
  entityDedupPhase s := (s + 1, { pairsFound := 0, merged := 0 })
  extractionPhase s := (s + 1, { total := 0, processed := 0, succeeded := 0, failed := 0 })
  decayPhase s := (s + 1, 0)
  cleanupPhase s := (s + 1, { entitiesRemoved := 0, tagsRemoved := 0, singleUseTagsRemoved := 0 })
  noisePhase s := (s + 1, 0)
  credentialPhase s := (s + 1, { memoriesScanned := 0, credentialsFound := 0, memoriesRemoved := 0 })
  taskLedgerPhase s := (s + 1, { staleCount := 0, archivedCount := 0 })

/-- Memory rows of the credential-scan witness. -/
def cScanDB : List ScanMemory :=
  [{ id := "m1", text := "api_key_live_abcdef1234567890abcdef", category := "core" },
   { id := "m2", text := "I like coffee", category := "fact" }]

/-- Decay parameters of the core-exemption witness. -/
def cParams : DecayParams :=
  { retentionThreshold := mkRat 1 10, baseHalfLifeDays := 30,
    importanceMultiplier := 2, decayCurves := [] }

/-- Ancient core memory of the core-exemption witness. -/
def cCoreMem : DecayMemory :=
  { id := "c1", text := "user name is Ada", category := "core",
    importance := 1, retrievalCount := 0, effectiveAgeDays := 100000 }

/-- Signals of the RRF witness. -/
def cSignals : List (List SearchSignalResult) :=
  [[{ id := "x", text := "tx", category := "fact", importance := 1, createdAt := "", score := mkRat 9 10 }],
   [{ id := "y", text := "ty", category := "fact", importance := 1, createdAt := "", score := mkRat 8 10 },
    { id := "x", text := "tx", category := "fact", importance := 1, createdAt := "", score := mkRat 7 10 }]]

/-- Weights of the RRF witness. -/
def cWeights : List ℚ := [mkRat 12 10, mkRat 7 10]

/-! # Theorems -/

/-! ## Helper lemmas -/

/-- Membership is preserved by first-occurrence de-duplication. -/
theorem mem_firstDedup {x : String} : ∀ {l : List String}, x ∈ firstDedup l ↔ x ∈ l
  | [] => by simp [firstDedup]
  | a :: rest => by
    simp only [firstDedup, List.mem_cons, List.mem_filter, decide_eq_true_eq]
    constructor
    · rintro (h | ⟨h, _⟩)
      · exact Or.inl h
      · exact Or.inr (mem_firstDedup.mp h)
    · rintro (h | h)
      · exact Or.inl h
      · by_cases hx : x = a
        · exact Or.inl hx
        · exact Or.inr ⟨mem_firstDedup.mpr h, hx⟩

/-! ## C2: relationship-type allowlist -/

/-- C2: every relationship type outside the fixed allowlist is rejected by
`validateRelationshipType`, and only allowlisted types survive the
`validRels` filter of `batchEntityOperations` and reach the Cypher
interpolation point (`interpolatedRelTypes`) — for relationship creation
from extraction batch writes and any other caller of the batch write. -/
theorem relationship_allowlist_enforced :
    (∀ t : String, t ∉ ALLOWED_RELATIONSHIP_TYPES → validateRelationshipType t = false) ∧
    (∀ relationships : List RelInput, ∀ t ∈ interpolatedRelTypes relationships,
      t ∈ ALLOWED_RELATIONSHIP_TYPES) ∧
    (∀ relationships : List RelInput, ∀ r ∈ validRels relationships,
      validateRelationshipType r.type = true) := by
  refine ⟨?_, ?_, ?_⟩
  · intro t ht
    simpa [validateRelationshipType, List.elem_iff] using ht
  · intro relationships t ht
    have ht2 : t ∈ (validRels relationships).map (fun r => r.type) :=
      mem_firstDedup.mp ht
    obtain ⟨r, hr, hrt⟩ := List.mem_map.mp ht2
    have hv : validateRelationshipType r.type = true := (List.mem_filter.mp hr).2
    have : r.type ∈ ALLOWED_RELATIONSHIP_TYPES := by
      simpa [validateRelationshipType, List.elem_iff] using hv
    exact hrt ▸ this
  · intro relationships r hr
    exact (List.mem_filter.mp hr).2

/-- Witness for C2 at the concrete type `"DROP_TABLE"` and a concrete
relationship list. -/
theorem relationship_allowlist_enforced_witness :
    ("DROP_TABLE" ∉ ALLOWED_RELATIONSHIP_TYPES ∧
      validateRelationshipType "DROP_TABLE" = false) ∧
    "KNOWS" ∈ ALLOWED_RELATIONSHIP_TYPES :=
  ⟨⟨by decide, relationship_allowlist_enforced.1 "DROP_TABLE" (by decide)⟩,
   relationship_allowlist_enforced.2.1
     [{ source := "a", target := "b", type := "KNOWS", confidence := 1 }]
     "KNOWS" (by decide)⟩

/-! ## C9: query classification -/

/-- C9: `classifyQuery` classifies the four scenario queries as the
specification states, and for every query the capitalized-non-stopword
check runs before the word-count checks: any query containing such a token
is classified `entity` (in particular a 2-word proper-noun query is
`entity`, not `short`). -/
theorem classifyQuery_scenarios_and_entity_priority :
    classifyQuery "John" = QueryType.entity ∧
    classifyQuery "ok" = QueryType.short ∧
    classifyQuery "what is the best approach for this deployment pipeline migration"
      = QueryType.long ∧
    classifyQuery "fix bug" = QueryType.short ∧
    (∀ q : String, (jsWords q).any isCapitalizedNonStopword = true →
      classifyQuery q = QueryType.entity) := by
  refine ⟨by decide, by decide, by decide, by decide, ?_⟩
  intro q hq
  obtain ⟨w, hw, hp⟩ := List.any_eq_true.mp hq
  have hmem : w ∈ (jsWords q).filter isCapitalizedNonStopword :=
    List.mem_filter.mpr ⟨hw, hp⟩
  have hpos : 0 < ((jsWords q).filter isCapitalizedNonStopword).length :=
    List.length_pos.mpr (List.ne_nil_of_mem hmem)
  simp only [classifyQuery]
  rw [if_pos hpos]

/-- Witness for C9: the 2-word proper-noun query `"John Smith"` is
classified `entity`. -/
theorem classifyQuery_witness :
    (jsWords "John Smith").any isCapitalizedNonStopword = true ∧
    classifyQuery "John Smith" = QueryType.entity :=
  ⟨by decide,
   classifyQuery_scenarios_and_entity_priority.2.2.2.2 "John Smith" (by decide)⟩

/-! ## C6: credential detection and removal -/

/-- C6: `detectCredential` flags the scenario API key and leaves the clean
text alone, and the credential-scan phase removes every flagged memory
regardless of category (`core` included) while leaving every clean memory
untouched (given unique ids, as guaranteed by the store's uniqueness
constraint on `Memory.id`). -/
theorem credentialScan_detects_and_removes :
    detectCredential "api_key_live_abcdef1234567890abcdef" = some "API key" ∧
    detectCredential "I like coffee" = none ∧
    (∀ (db : List ScanMemory) (m : ScanMemory), m ∈ db →
      ((detectCredential m.text).isSome → m ∉ (credentialScanPhaseModel db).1) ∧
      ((db.map (fun x => x.id)).Nodup → detectCredential m.text = none →
        m ∈ (credentialScanPhaseModel db).1)) := by
  refine ⟨by decide, by decide, ?_⟩
  intro db m hm
  constructor
  · intro hflag hmem
    have hcontains : (((db.filter (fun x => (detectCredential x.text).isSome)).map
        (fun x => x.id)).contains m.id) = false :=
      by simpa using (List.mem_filter.mp hmem).2
    have hid : (((db.filter (fun x => (detectCredential x.text).isSome)).map
        (fun x => x.id)).contains m.id) = true :=
      List.elem_iff.mpr
        (List.mem_map.mpr ⟨m, List.mem_filter.mpr ⟨hm, by simpa using hflag⟩, rfl⟩)
    rw [hcontains] at hid
    exact Bool.false_ne_true hid
  · intro hnodup hclean
    refine List.mem_filter.mpr ⟨hm, ?_⟩
    suffices h : m.id ∉ (db.filter (fun x => (detectCredential x.text).isSome)).map
        (fun x => x.id) by
      simpa [List.elem_iff] using h
    intro hid
    obtain ⟨m2, hm2, hm2id⟩ := List.mem_map.mp hid
    have hm2f := List.mem_filter.mp hm2
    have : m2 = m :=
      List.inj_on_of_nodup_map hnodup hm2f.1 hm hm2id
    rw [this] at hm2f
    simp [hclean] at hm2f

/-- Witness for C6: the credential-scan phase deletes the `core` memory
holding the scenario API key and keeps the clean memory. -/
theorem credentialScan_witness :
    ({ id := "m1", text := "api_key_live_abcdef1234567890abcdef", category := "core" } : ScanMemory)
      ∉ (credentialScanPhaseModel cScanDB).1 ∧
    ({ id := "m2", text := "I like coffee", category := "fact" } : ScanMemory)
      ∈ (credentialScanPhaseModel cScanDB).1 :=
  ⟨(credentialScan_detects_and_removes.2.2 cScanDB _ (by decide)).1 (by decide),
   (credentialScan_detects_and_removes.2.2 cScanDB _ (by decide)).2 (by decide) (by decide)⟩

/-! ## C7: `memory_forget` auto-delete threshold -/

/-- Counterexample for C7: the vector search returns exactly one result
scoring exactly `0.95` — which satisfies the claim's `≥ 0.95` premise —
yet the handler does not delete it: the comparison in `index.ts` is the
strict `results[0].score > 0.95`, so a candidate list is returned and the
store is unchanged. -/
theorem memory_forget_threshold_counterexample :
    (mkRat 95 100 ≥ mkRat 95 100) ∧
    memoryForgetByQuery [{ id := "m1", text := "likes tea", agentId := "a" }]
        [{ id := "m1", text := "likes tea", category := "fact", score := mkRat 95 100 }] "a"
      = (ForgetOutcome.candidates ["m1"],
         [{ id := "m1", text := "likes tea", agentId := "a" }]) := by
  exact ⟨by decide, by decide⟩

/-- C7 as amended: with exactly one result scoring strictly above `0.95`
that memory is deleted and `deleted` is returned; in every other case with
at least one result nothing is deleted and the candidate list (the ids of
all results) is returned. -/
theorem memory_forget_auto_delete_amended (db : List StoredMem)
    (results : List ForgetHit) (agentId : String) :
    (∀ r, results = [r] → mkRat 95 100 < r.score →
      memoryForgetByQuery db results agentId
        = (ForgetOutcome.deleted r.id, deleteMemoryScoped db r.id agentId)) ∧
    (results ≠ [] → (¬ ∃ r, results = [r] ∧ mkRat 95 100 < r.score) →
      memoryForgetByQuery db results agentId
        = (ForgetOutcome.candidates (results.map (fun r => r.id)), db)) := by
  constructor
  · rintro r rfl hr
    simp [memoryForgetByQuery, hr]
  · intro hne hnot
    match results with
    | [] => exact absurd rfl hne
    | [r] =>
      have hr : ¬ mkRat 95 100 < r.score := fun h => hnot ⟨r, rfl, h⟩
      simp [memoryForgetByQuery, hr]
    | r1 :: r2 :: rest => rfl

/-- Witness for the amended C7: a single result scoring `0.96` is deleted;
two results produce a candidate list with no deletion. -/
theorem memory_forget_amended_witness :
    (memoryForgetByQuery [{ id := "m1", text := "t", agentId := "a" }]
        [{ id := "m1", text := "t", category := "fact", score := mkRat 96 100 }] "a"
      = (ForgetOutcome.deleted "m1",
         deleteMemoryScoped [{ id := "m1", text := "t", agentId := "a" }] "m1" "a")) ∧
    (memoryForgetByQuery [{ id := "m1", text := "t", agentId := "a" }]
        [{ id := "m1", text := "t", category := "fact", score := mkRat 99 100 },
         { id := "m2", text := "u", category := "fact", score := mkRat 98 100 }] "a"
      = (ForgetOutcome.candidates ["m1", "m2"],
         [{ id := "m1", text := "t", agentId := "a" }])) :=
  ⟨(memory_forget_auto_delete_amended _ _ _).1 _ rfl (by decide),
   (memory_forget_auto_delete_amended _ _ _).2 (by decide)
     (by rintro ⟨r, h, _⟩; simp at h)⟩

/-! ## C3: `memory_store` duplicate detection -/

/-- Counterexample for C3: the store holds a same-agent memory (`a1`) with
similarity `0.96 ≥ 0.95` to the new text, but three memories of another
agent rank higher; `findSimilar` over-fetches only `3 × limit` candidates
before the agent post-filter, so the duplicate is missed, `memory_store`
returns `created` and writes a new memory. -/
theorem memory_store_duplicate_counterexample :
    ({ id := "a1", text := "likes tea", agentId := "a" } : StoredMem) ∈ cDB ∧
    mkRat 95 100 ≤ cSim "a1" ∧
    memoryStore cDB cSim "new" "likes tea a lot" "a"
      = (StoreOutcome.created "new",
         cDB ++ [{ id := "new", text := "likes tea a lot", agentId := "a" }]) := by
  exact ⟨by decide, by decide, by decide⟩

/-- C3 as amended: when a same-agent memory with similarity ≥ 0.95 is among
the `3 × limit = 3` nearest neighbours returned by the vector index,
`memory_store` returns `duplicate` with an existing same-agent memory's id
and text and performs no write; when no memory in that window passes the
agent-and-threshold filter, exactly one new memory is appended and
`created` is returned. -/
theorem memory_store_amended (db : List StoredMem) (sim : String → ℚ)
    (newId text agentId : String) :
    (∀ m, m ∈ vectorIndexTopK db sim 3 → m.agentId = agentId → mkRat 95 100 ≤ sim m.id →
      (memoryStore db sim newId text agentId).2 = db ∧
      ∃ e, (memoryStore db sim newId text agentId).1 = StoreOutcome.duplicate e.id e.text ∧
        e ∈ db ∧ e.agentId = agentId ∧ mkRat 95 100 ≤ sim e.id) ∧
    ((∀ m ∈ vectorIndexTopK db sim 3, ¬ (m.agentId = agentId ∧ mkRat 95 100 ≤ sim m.id)) →
      memoryStore db sim newId text agentId
        = (StoreOutcome.created newId,
           db ++ [{ id := newId, text := text, agentId := agentId }])) := by
  constructor
  · intro m hm hag hsc
    have hmf : m ∈ (vectorIndexTopK db sim (1 * 3)).filter
        (fun x => decide (mkRat 95 100 ≤ sim x.id) && x.agentId == agentId) := by
      refine List.mem_filter.mpr ⟨by simpa using hm, ?_⟩
      simp [hag, hsc]
    have hne : (vectorIndexTopK db sim (1 * 3)).filter
        (fun x => decide (mkRat 95 100 ≤ sim x.id) && x.agentId == agentId) ≠ [] :=
      List.ne_nil_of_mem hmf
    obtain ⟨e, rest, hcons⟩ := List.exists_cons_of_ne_nil hne
    have hfs : findSimilar db sim (mkRat 95 100) 1 agentId = [e] := by
      simp [findSimilar, hcons]
    have he : e ∈ (vectorIndexTopK db sim (1 * 3)).filter
        (fun x => decide (mkRat 95 100 ≤ sim x.id) && x.agentId == agentId) := by
      rw [hcons]; exact List.mem_cons_self e rest
    have he2 := List.mem_filter.mp he
    have hedb : e ∈ db := by
      have := List.mem_of_mem_take (by simpa [vectorIndexTopK] using he2.1 :
        e ∈ (List.insertionSort (fun m1 m2 => sim m2.id ≤ sim m1.id) db).take 3)
      exact (List.mem_insertionSort _).mp this
    have hprops : mkRat 95 100 ≤ sim e.id ∧ e.agentId = agentId := by
      have := he2.2
      simp only [Bool.and_eq_true, decide_eq_true_eq, beq_iff_eq] at this
      exact this
    refine ⟨?_, e, ?_, hedb, hprops.2, hprops.1⟩
    · simp [memoryStore, hfs]
    · simp [memoryStore, hfs]
  · intro hnone
    have hfil : (vectorIndexTopK db sim (1 * 3)).filter
        (fun x => decide (mkRat 95 100 ≤ sim x.id) && x.agentId == agentId) = [] := by
      refine List.filter_eq_nil_iff.mpr ?_
      intro m hm
      have := hnone m (by simpa using hm)
      simp only [Bool.and_eq_true, decide_eq_true_eq, beq_iff_eq]
      intro hcon
      exact this ⟨hcon.2, hcon.1⟩
    have hfs : findSimilar db sim (mkRat 95 100) 1 agentId = [] := by
      simp [findSimilar, hfil]
    simp [memoryStore, hfs]

/-- Witness for the amended C3: a single-agent store with one similar
memory short-circuits to `duplicate` with no write; an empty store yields
`created` with exactly one appended memory. -/
theorem memory_store_amended_witness :
    (memoryStore wDB wSim "new" "tea again" "a").2 = wDB ∧
    memoryStore ([] : List StoredMem) wSim "n2" "t2" "a"
      = (StoreOutcome.created "n2", [{ id := "n2", text := "t2", agentId := "a" }]) :=
  ⟨((memory_store_amended wDB wSim "new" "tea again" "a").1
      { id := "d1", text := "likes tea", agentId := "a" }
      (by decide) (by decide) (by decide)).1,
   (memory_store_amended [] wSim "n2" "t2" "a").2
     (by intro m hm; simp [vectorIndexTopK, List.insertionSort] at hm)⟩

/-! ## C5: abort signal skips later phases -/

/-- C5: once the abort signal is set before a top-level phase begins (and
an `AbortSignal` never resets, which is the monotonicity hypothesis), that
phase and every later phase leave the store state untouched — no merges,
invalidations, prunes or deletions — the final state is the state at abort
time, and the returned result has `aborted = true`.  This holds for every
environment, so in particular decay, cleanup and credential phases are
untouched when the signal fires during dedup (`k = 1`). -/
theorem sleep_cycle_abort_skips_later_phases {σ : Type} (env : SleepEnv σ)
    (skip extraction workspace : Bool) (ab : ℕ → Bool) (st : σ) (k : ℕ)
    (hmono : ∀ i j : ℕ, i ≤ j → ab i = true → ab j = true)
    (habk : ab k = true) (hk : k ≤ 9) :
    (∀ j, k ≤ j → sleepStates env skip extraction workspace ab st j
      = sleepStates env skip extraction workspace ab st k) ∧
    (runSleepCycleModel env skip extraction workspace ab st).aborted = true ∧
    (runSleepCycleModel env skip extraction workspace ab st).db
      = sleepStates env skip extraction workspace ab st k := by
  have hstates : ∀ j, k ≤ j → sleepStates env skip extraction workspace ab st j
      = sleepStates env skip extraction workspace ab st k := by
    intro j hj
    induction j with
    | zero =>
      have : k = 0 := Nat.le_zero.mp hj
      rw [this]
    | succ n ih =>
      rcases Nat.lt_or_ge k (n + 1) with hlt | hge
      · have hkn : k ≤ n := Nat.lt_succ_iff.mp hlt
        have habn : ab n = true := hmono k n hkn habk
        have hguard : sleepGuard skip extraction workspace ab n = false := by
          simp [sleepGuard, habn]
        calc sleepStates env skip extraction workspace ab st (n + 1)
            = sleepStates env skip extraction workspace ab st n := by
              simp [sleepStates, hguard]
          _ = sleepStates env skip extraction workspace ab st k := ih hkn
      · have : k = n + 1 := Nat.le_antisymm hj hge
        rw [this]
  refine ⟨hstates, ?_, hstates 9 hk⟩
  simp [runSleepCycleModel, hmono k 9 hk habk]

/-- Witness for C5: with the signal aborted from the start, the concrete
environment (whose every phase increments the state) performs no phase
effect at all and reports `aborted = true`. -/
theorem sleep_cycle_abort_witness :
    (runSleepCycleModel cEnv false true true (fun _ => true) (0 : ℕ)).aborted = true ∧
    (runSleepCycleModel cEnv false true true (fun _ => true) (0 : ℕ)).db = 0 :=
  ⟨(sleep_cycle_abort_skips_later_phases cEnv false true true (fun _ => true) 0 0
      (fun _ _ _ h => h) rfl (by decide)).2.1,
   (sleep_cycle_abort_skips_later_phases cEnv false true true (fun _ => true) 0 0
      (fun _ _ _ h => h) rfl (by decide)).2.2⟩

/-! ## C10: `skipSemanticDedup` also skips conflict detection -/

/-- C10: with `skipSemanticDedup = true` the conflict-detection phase is
skipped entirely for every environment, abort signal and initial state:
the store state after Phase 1c equals the state before it (so
`findConflictingMemories`, `resolveConflict` and `invalidateMemory` are
never invoked by the phase), the returned conflict counters stay at
`{pairsFound := 0, resolved := 0, invalidated := 0}`, and within Phase 1
the semantic-dedup sub-phase is not applied either. -/
theorem skip_semantic_dedup_skips_conflict_phase {σ : Type} (env : SleepEnv σ)
    (extraction workspace : Bool) (ab : ℕ → Bool) (st : σ) :
    (runSleepCycleModel env true extraction workspace ab st).conflict
      = { pairsFound := 0, resolved := 0, invalidated := 0 } ∧
    sleepStates env true extraction workspace ab st 2
      = sleepStates env true extraction workspace ab st 1 ∧
    (∀ s : σ, phase1 env true s
      = ((env.vectorDedupPhase s).1, (env.vectorDedupPhase s).2,
         { pairsChecked := 0, duplicatesMerged := 0 })) := by
  have hguard : sleepGuard true extraction workspace ab 1 = false := by
    simp [sleepGuard]
  refine ⟨?_, ?_, ?_⟩
  · simp [runSleepCycleModel, hguard]
  · simp [sleepStates, hguard]
  · intro s
    simp [phase1]

/-! ## C8: `mergeMemoryCluster` -/

/-- Invariants of the survivor-selection fold: the result is the running
best or a member of the remaining index list, and it dominates both. -/
theorem argmaxFrom_spec (imps : List ℚ) :
    ∀ (l : List ℕ) (best : ℕ),
      (argmaxFrom imps l best = best ∨ argmaxFrom imps l best ∈ l) ∧
      imps.getD best 0 ≤ imps.getD (argmaxFrom imps l best) 0 ∧
      (∀ i ∈ l, imps.getD i 0 ≤ imps.getD (argmaxFrom imps l best) 0)
  | [], best => by simp [argmaxFrom]
  | i :: rest, best => by
    simp only [argmaxFrom]
    by_cases h : imps.getD best 0 < imps.getD i 0
    · rw [if_pos h]
      obtain ⟨hmem, hbest, hall⟩ := argmaxFrom_spec imps rest i
      refine ⟨?_, le_trans (le_of_lt h) hbest, ?_⟩
      · rcases hmem with h1 | h1
        · exact Or.inr (by rw [h1]; exact List.mem_cons_self i rest)
        · exact Or.inr (List.mem_cons_of_mem i h1)
      · intro j hj
        rcases List.mem_cons.mp hj with rfl | hj2
        · exact hbest
        · exact hall j hj2
    · rw [if_neg h]
      obtain ⟨hmem, hbest, hall⟩ := argmaxFrom_spec imps rest best
      refine ⟨?_, hbest, ?_⟩
      · rcases hmem with h1 | h1
        · exact Or.inl h1
        · exact Or.inr (List.mem_cons_of_mem i h1)
      · intro j hj
        rcases List.mem_cons.mp hj with rfl | hj2
        · exact le_trans (le_of_not_lt h) hbest
        · exact hall j hj2

/-- The survivor index is in range for a nonempty importance list. -/
theorem survivorIndex_lt (imps : List ℚ) (h : imps ≠ []) :
    survivorIndex imps < imps.length := by
  have hpos : 0 < imps.length := List.length_pos.mpr h
  rcases (argmaxFrom_spec imps (List.range imps.length) 0).1 with h1 | h1
  · rw [survivorIndex, h1]; exact hpos
  · exact List.mem_range.mp h1

/-- The survivor index maximises importance. -/
theorem survivorIndex_max (imps : List ℚ) :
    ∀ j < imps.length, imps.getD j 0 ≤ imps.getD (survivorIndex imps) 0 := by
  intro j hj
  exact (argmaxFrom_spec imps (List.range imps.length) 0).2.2 j (List.mem_range.mpr hj)

/-- Filtering one in-range value out of `range n` leaves `n - 1` elements. -/
theorem range_filter_ne_length (s n : ℕ) (hn : s < n) :
    ((List.range n).filter (fun x => x ≠ s)).length = n - 1 := by
  induction n with
  | zero => omega
  | succ m ih =>
    rw [List.range_succ, List.filter_append, List.length_append]
    by_cases hm : s < m
    · have h1 : (List.filter (fun x => x ≠ s) [m]).length = 1 := by
        have hms : m ≠ s := by omega
        simp [hms]
      rw [ih hm, h1]
      omega
    · have hsm : s = m := by omega
      have h1 : (List.filter (fun x => x ≠ s) [m]).length = 0 := by simp [hsm]
      have h2 : ((List.range m).filter (fun x => x ≠ s)).length = m := by
        rw [List.filter_eq_self.mpr, List.length_range]
        intro x hx
        have : x < m := List.mem_range.mp hx
        simp
        omega
      rw [h1, h2]
      omega

/-- Removing one in-range index from an enumerated list leaves
`length - 1` elements. -/
theorem clusterLosers_length {memoryIds : List String} {importances : List ℚ}
    (hs : survivorIndex importances < memoryIds.length) :
    (clusterLosers memoryIds importances).length = memoryIds.length - 1 := by
  calc (clusterLosers memoryIds importances).length
      = (memoryIds.enum.filter (fun p => p.1 ≠ survivorIndex importances)).length := by
        rw [clusterLosers, List.length_map]
    _ = ((memoryIds.enum.map Prod.fst).filter
          (fun x => x ≠ survivorIndex importances)).length := by
        rw [List.filter_map, List.length_map]
        rfl
    _ = ((List.range memoryIds.length).filter
          (fun x => x ≠ survivorIndex importances)).length := by
        rw [List.enum_map_fst]
    _ = memoryIds.length - 1 := range_filter_ne_length _ _ hs

/-- A loser's edge is re-pointed at the survivor by `transferEdges`. -/
theorem mem_transferEdges (edges : List (String × String)) (losers : List String)
    (survivor : String) (pr : String × String) (hpr : pr ∈ edges) (hl : pr.1 ∈ losers) :
    (survivor, pr.2) ∈ transferEdges edges losers survivor := by
  unfold transferEdges
  by_cases hk : (survivor, pr.2) ∈ edges.filter (fun p => !(losers.contains p.1))
  · exact List.mem_append_left _ hk
  · refine List.mem_append_right _ (List.mem_filter.mpr ⟨?_, ?_⟩)
    · exact List.mem_dedup.mpr (List.mem_map.mpr
        ⟨pr, List.mem_filter.mpr ⟨hpr, by simpa [List.elem_iff] using hl⟩, rfl⟩)
    · cases hcv : (edges.filter (fun p => !(losers.contains p.1))).contains (survivor, pr.2) with
      | false => simp [hcv]
      | true => exact absurd (List.elem_iff.mp hcv) hk

/-- C8: `mergeMemoryCluster` selects a maximal-importance member as
survivor; when every listed member exists, `deletedCount = len(ids) - 1`,
the losers are removed from the store and their `MENTIONS`/`TAGGED` edges
end up on the survivor; when any member is missing, `deletedCount = 0` and
the store is unchanged. -/
theorem mergeMemoryCluster_spec (db : GraphDB) (ids : List String) (imps : List ℚ)
    (hne : ids ≠ []) (hlen : imps.length = ids.length) :
    (survivorIndex imps < ids.length ∧
      (mergeMemoryCluster db ids imps).1.1 = ids.getD (survivorIndex imps) "" ∧
      (∀ j < imps.length, imps.getD j 0 ≤ imps.getD (survivorIndex imps) 0)) ∧
    ((∀ i ∈ ids, i ∈ db.memories) →
      (mergeMemoryCluster db ids imps).1.2 = ids.length - 1 ∧
      (mergeMemoryCluster db ids imps).2.memories
        = db.memories.filter (fun i => !((clusterLosers ids imps).contains i)) ∧
      (∀ pr ∈ db.mentions, pr.1 ∈ clusterLosers ids imps →
        (ids.getD (survivorIndex imps) "", pr.2)
          ∈ (mergeMemoryCluster db ids imps).2.mentions) ∧
      (∀ pr ∈ db.tagged, pr.1 ∈ clusterLosers ids imps →
        (ids.getD (survivorIndex imps) "", pr.2)
          ∈ (mergeMemoryCluster db ids imps).2.tagged)) ∧
    ((∃ i ∈ ids, i ∉ db.memories) →
      (mergeMemoryCluster db ids imps).1.2 = 0 ∧
      (mergeMemoryCluster db ids imps).2 = db) := by
  have hlt : survivorIndex imps < ids.length := by
    have := survivorIndex_lt imps (by
      intro h
      rw [h] at hlen
      exact hne (List.eq_nil_of_length_eq_zero hlen.symm))
    omega
  refine ⟨⟨hlt, ?_, survivorIndex_max imps⟩, ?_, ?_⟩
  · unfold mergeMemoryCluster
    split <;> rfl
  · intro hall
    have hcond : ids.all (fun i => db.memories.contains i) = true := by
      rw [List.all_eq_true]
      intro i hi
      exact List.elem_iff.mpr (hall i hi)
    have hm : mergeMemoryCluster db ids imps
        = ((ids.getD (survivorIndex imps) "", (clusterLosers ids imps).length),
           { memories := db.memories.filter
               (fun i => !((clusterLosers ids imps).contains i)),
             mentions := transferEdges db.mentions (clusterLosers ids imps)
               (ids.getD (survivorIndex imps) ""),
             tagged := transferEdges db.tagged (clusterLosers ids imps)
               (ids.getD (survivorIndex imps) "") }) := by
      unfold mergeMemoryCluster
      rw [hcond]
      rfl
    refine ⟨?_, ?_, ?_, ?_⟩
    · rw [hm]
      exact clusterLosers_length hlt
    · rw [hm]
    · intro pr hpr hl
      rw [hm]
      exact mem_transferEdges db.mentions _ _ pr hpr hl
    · intro pr hpr hl
      rw [hm]
      exact mem_transferEdges db.tagged _ _ pr hpr hl
  · intro hmissing
    have hcond : ids.all (fun i => db.memories.contains i) = false := by
      obtain ⟨i, hi, hni⟩ := hmissing
      rw [List.all_eq_false]
      exact ⟨i, hi, by simpa [List.elem_iff] using hni⟩
    have hm2 : mergeMemoryCluster db ids imps
        = ((ids.getD (survivorIndex imps) "", 0), db) := by
      unfold mergeMemoryCluster
      rw [hcond]
      rfl
    exact ⟨by rw [hm2], by rw [hm2]⟩

/-- Witness for C8: a three-member cluster whose highest-importance member
`"high"` survives and whose two losers are deleted. -/
theorem mergeMemoryCluster_witness :
    (mergeMemoryCluster cGDB cIds cImps).1.1 = cIds.getD (survivorIndex cImps) "" ∧
    (mergeMemoryCluster cGDB cIds cImps).1.2 = cIds.length - 1 :=
  ⟨((mergeMemoryCluster_spec cGDB cIds cImps (by decide) (by decide)).1).2.1,
   ((mergeMemoryCluster_spec cGDB cIds cImps (by decide) (by decide)).2.1
      (by decide)).1⟩

/-! ## C4: confidence-weighted RRF fusion -/

/-- The accumulator loop of `fuseWithConfidenceRRF` computes the sum of
the per-signal contributions. -/
theorem rrf_foldl_eq (signals : List (List SearchSignalResult)) (weights : List ℚ)
    (k : ℚ) (i : String) :
    ∀ (l : List ℕ) (a : ℚ),
      l.foldl (fun acc idx =>
        match signalEntry (signals.getD idx []) i with
        | some (r, s) => acc + weights.getD idx 0 * s * (1 / (k + (r : ℚ)))
        | none => acc) a
      = a + (l.map (fun idx =>
          match signalEntry (signals.getD idx []) i with
          | some (r, s) => weights.getD idx 0 * s / (k + (r : ℚ))
          | none => 0)).sum
  | [], a => by simp
  | idx :: rest, a => by
    rw [List.foldl_cons, List.map_cons, List.sum_cons]
    cases h : signalEntry (signals.getD idx []) i with
    | none =>
      simp only [h]
      rw [rrf_foldl_eq signals weights k i rest a]
      ring
    | some p =>
      obtain ⟨r, s⟩ := p
      simp only [h]
      rw [rrf_foldl_eq signals weights k i rest
        (a + weights.getD idx 0 * s * (1 / (k + (r : ℚ))))]
      rw [mul_one_div]
      ring

/-- C4: every fused candidate's score equals the specification formula
`Σ_i weight_i × rawScore_i / (k + rank_i)` with absent signals contributing
0; the fused list is sorted descending by that score; `hybridSearch`
truncates it to `limit`; and the candidates are exactly the unique ids
appearing in some signal. -/
theorem hybridSearch_rrf_fusion_spec (signals : List (List SearchSignalResult))
    (weights : List ℚ) (k : ℚ) (limit : ℕ) :
    (∀ c ∈ fuseWithConfidenceRRF signals k weights,
      c.rrfScore = claimFusedScore signals weights k c.id) ∧
    List.Sorted (fun a b => b.rrfScore ≤ a.rrfScore) (fuseWithConfidenceRRF signals k weights) ∧
    hybridSearchRanked signals k weights limit
      = (fuseWithConfidenceRRF signals k weights).take limit ∧
    (∀ i : String,
      (∃ c ∈ fuseWithConfidenceRRF signals k weights, c.id = i) ↔
      ∃ sg ∈ signals, ∃ e ∈ sg, e.id = i) := by
  have hscore : ∀ i, rrfScoreOf signals weights k i = claimFusedScore signals weights k i := by
    intro i
    rw [rrfScoreOf, claimFusedScore,
      rrf_foldl_eq signals weights k i (List.range signals.length) 0, zero_add]
  refine ⟨?_, ?_, rfl, ?_⟩
  · intro c hc
    have hc2 := (List.mem_insertionSort _).mp hc
    obtain ⟨i, hi, hrec⟩ := List.mem_map.mp hc2
    rw [← hrec]
    simpa using hscore i
  · haveI : IsTotal FusedCandidate (fun a b => b.rrfScore ≤ a.rrfScore) :=
      ⟨fun a b => le_total b.rrfScore a.rrfScore⟩
    haveI : IsTrans FusedCandidate (fun a b => b.rrfScore ≤ a.rrfScore) :=
      ⟨fun a b c h1 h2 => le_trans h2 h1⟩
    exact List.sorted_insertionSort _ _
  · intro i
    constructor
    · rintro ⟨c, hc, rfl⟩
      have hc2 := (List.mem_insertionSort _).mp hc
      obtain ⟨j, hj, hrec⟩ := List.mem_map.mp hc2
      have hcid : c.id = j := by rw [← hrec]
      rw [hcid]
      have hj2 : j ∈ signals.flatMap (fun s => s.map (fun e => e.id)) :=
        mem_firstDedup.mp hj
      obtain ⟨sg, hsg, hjm⟩ := List.mem_flatMap.mp hj2
      obtain ⟨e, he, hei⟩ := List.mem_map.mp hjm
      exact ⟨sg, hsg, e, he, hei⟩
    · rintro ⟨sg, hsg, e, he, rfl⟩
      have hid : e.id ∈ candidateIds signals :=
        mem_firstDedup.mpr
          (List.mem_flatMap.mpr ⟨sg, hsg, List.mem_map.mpr ⟨e, he, rfl⟩⟩)
      refine ⟨_, (List.mem_insertionSort _).mpr (List.mem_map.mpr ⟨e.id, hid, rfl⟩), rfl⟩

/-- Witness for C4 at a concrete two-signal instance. -/
theorem hybridSearch_rrf_fusion_witness :
    List.Sorted (fun a b => b.rrfScore ≤ a.rrfScore)
      (fuseWithConfidenceRRF cSignals 60 cWeights) ∧
    hybridSearchRanked cSignals 60 cWeights 1
      = (fuseWithConfidenceRRF cSignals 60 cWeights).take 1 :=
  ⟨(hybridSearch_rrf_fusion_spec cSignals cWeights 60 1).2.1,
   (hybridSearch_rrf_fusion_spec cSignals cWeights 60 1).2.2.1⟩

/-! ## C1: decay monotonicity and core exemption -/

/-- C1: with
`halfLife = categoryHalfLife × (1 + importance × importanceMultiplier) × (1 + ln(1 + retrievalCount) × 0.2)`,
the decay score `importance × e^(-effectiveAgeDays / halfLife)` is
monotonically decreasing in `effectiveAgeDays` for every fixed importance,
retrieval count and (positive) half-life parameters; and the decay query
never selects a `core` memory as a pruning candidate, for every parameter
choice, so the pruning phase never deletes a `core` memory. -/
theorem decay_monotone_and_core_never_pruned :
    (∀ (importance catHalfLife impMult ageA ageB : ℚ) (rc : ℕ),
      0 ≤ importance → 0 < catHalfLife → 0 ≤ impMult → ageA ≤ ageB →
      decayScore (importance : ℝ) (ageB : ℝ)
          (decayHalfLife (catHalfLife : ℝ) (impMult : ℝ) (importance : ℝ) rc)
        ≤ decayScore (importance : ℝ) (ageA : ℝ)
          (decayHalfLife (catHalfLife : ℝ) (impMult : ℝ) (importance : ℝ) rc)) ∧
    (∀ (p : DecayParams) (db : List DecayMemory) (m : DecayMemory),
      m.category = "core" → ¬ isDecayCandidate p m ∧ m ∉ decayPrunedSet p db) := by
  constructor
  · intro imp catHL mult a b rc himp hcat hmult hab
    have himpR : (0 : ℝ) ≤ (imp : ℝ) := by exact_mod_cast himp
    have hH : (0 : ℝ) < decayHalfLife (catHL : ℝ) (mult : ℝ) (imp : ℝ) rc := by
      have hcatR : (0 : ℝ) < (catHL : ℝ) := by exact_mod_cast hcat
      have hmultR : (0 : ℝ) ≤ (mult : ℝ) := by exact_mod_cast hmult
      have hprod : (0 : ℝ) ≤ (imp : ℝ) * (mult : ℝ) := mul_nonneg himpR hmultR
      have hf2 : (0 : ℝ) < 1 + (imp : ℝ) * (mult : ℝ) := by linarith
      have hrcR : (0 : ℝ) ≤ (rc : ℝ) := Nat.cast_nonneg rc
      have hlog : (0 : ℝ) ≤ Real.log (1 + (rc : ℝ)) := Real.log_nonneg (by linarith)
      have hf3 : (0 : ℝ) < 1 + Real.log (1 + (rc : ℝ)) * (2 / 10) := by nlinarith
      unfold decayHalfLife
      exact mul_pos (mul_pos hcatR hf2) hf3
    unfold decayScore
    apply mul_le_mul_of_nonneg_left _ himpR
    apply Real.exp_le_exp.mpr
    have habR : (a : ℝ) ≤ (b : ℝ) := by exact_mod_cast hab
    rw [neg_one_mul, neg_one_mul, neg_div, neg_div, neg_le_neg_iff]
    exact (div_le_div_iff_of_pos_right hH).mpr habR
  · intro p db m hcore
    constructor
    · intro hcand
      exact hcand.1 hcore
    · intro hmem
      exact hmem.2.1 hcore

/-- Witness for C1 at concrete decay parameters and an ancient maximal
core memory. -/
theorem decay_monotone_and_core_never_pruned_witness :
    ((0 : ℚ) ≤ mkRat 7 10 ∧ (0 : ℚ) < mkRat 30 1 ∧ (0 : ℚ) ≤ mkRat 2 1 ∧
      mkRat 10 1 ≤ mkRat 20 1) ∧
    decayScore ((mkRat 7 10 : ℚ) : ℝ) ((mkRat 20 1 : ℚ) : ℝ)
        (decayHalfLife ((mkRat 30 1 : ℚ) : ℝ) ((mkRat 2 1 : ℚ) : ℝ)
          ((mkRat 7 10 : ℚ) : ℝ) 5)
      ≤ decayScore ((mkRat 7 10 : ℚ) : ℝ) ((mkRat 10 1 : ℚ) : ℝ)
        (decayHalfLife ((mkRat 30 1 : ℚ) : ℝ) ((mkRat 2 1 : ℚ) : ℝ)
          ((mkRat 7 10 : ℚ) : ℝ) 5) ∧
    (¬ isDecayCandidate cParams cCoreMem ∧ cCoreMem ∉ decayPrunedSet cParams [cCoreMem]) :=
  ⟨⟨by decide, by decide, by decide, by decide⟩,
   decay_monotone_and_core_never_pruned.1 (mkRat 7 10) (mkRat 30 1) (mkRat 2 1)
     (mkRat 10 1) (mkRat 20 1) 5 (by decide) (by decide) (by decide) (by decide),
   decay_monotone_and_core_never_pruned.2 cParams [cCoreMem] cCoreMem rfl⟩

end OpenClaw






